import Mathlib

/-
Verification of the state-conductor service core (sampling state machine,
metric capture, snapshot diff engine), shallowly embedded from
`src/app.py` and `src/promclient.py`.

Python dicts are modelled as association lists with assignment semantics
(`insertKV` overwrites the first occurrence in place, otherwise appends),
floats as rationals, epoch timestamps as integers, and the per
(network, snapshot) file store as a record of optional values.  The
metrics gateway is an oracle mapping each metric-series name to either a
failure or a list of result rows.  Storage reads/writes and gateway calls
performed by a request handler are recorded in an event trace.
-/

set_option autoImplicit false

namespace StateConductor

/-! ## Association lists: the model of Python dicts -/

/-- First-match lookup, the model of `d[k]` / `d.get(k)` / `k in d`. -/
def lookupS {α : Type} : List (String × α) → String → Option α
  | [], _ => none
  | p :: rest, k => if p.1 = k then some p.2 else lookupS rest k

/-- Dict assignment `d[k] = v`: overwrite the first entry with key `k`
in place, otherwise append at the end (Python dicts keep insertion order). -/
def insertKV {α : Type} : List (String × α) → String → α → List (String × α)
  | [], k, v => [(k, v)]
  | p :: rest, k, v => if p.1 = k then (k, v) :: rest else p :: insertKV rest k v

/-- Keys of an association list. -/
def keysOf {α : Type} (l : List (String × α)) : List String :=
  l.map Prod.fst

/-! ## Data model -/

/-- A statistics tree: device name → interface name → metric name → value,
as captured by `_fetch_sampled_state_stats` and persisted by
`_save_state_stats` (`app.py` lines 256-307). -/
abbrev MetricMap := List (String × ℚ)

abbrev IfMap := List (String × MetricMap)

abbrev Stats := List (String × IfMap)

/-- One metric's diff record: `None`, or a dict with keys
`"counter"` and `"ratio"` whose values may be `None` (`app.py` lines 227-242). -/
abbrev DiffEntry := Option (List (String × Option ℚ))

abbrev DiffT := List (String × List (String × List (String × DiffEntry)))

instance : DecidableEq MetricMap := fun a b => instDecidableEqList a b

instance : DecidableEq IfMap := fun a b => instDecidableEqList a b

instance : DecidableEq Stats := fun a b => instDecidableEqList a b

instance : DecidableEq DiffEntry := fun a b =>
  @Option.instDecidableEq _ (fun x y => instDecidableEqList x y) a b

instance : DecidableEq (List (String × DiffEntry)) := fun a b => instDecidableEqList a b

instance : DecidableEq (List (String × List (String × DiffEntry))) := fun a b =>
  instDecidableEqList a b

instance : DecidableEq DiffT := fun a b => instDecidableEqList a b

/-- The durable store for one (network, snapshot) pair: the begin and end
timestamp marker files under `timestamp/` and the stats file under `state/`
(`app.py` lines 25-31, 48-49).  Distinct pairs use distinct files, so the
pairs are independent and one record models one pair. -/
structure St where
  beginTs : Option Int
  endTs : Option Int
  stats : Option Stats
  deriving DecidableEq, Repr

/-- One gateway result row: the two labels read from `raw_metric["metric"]`
(absent labels are `none`) and the scalar in `raw_metric["value"][1]`
(`app.py` lines 292-304). -/
structure Row where
  device : Option String
  interface : Option String
  value : ℚ
  deriving DecidableEq, Repr

/-- Storage and gateway events emitted by a request handler, in order. -/
inductive Ev where
  | existsTs (action : String)
  | readTs (action : String)
  | writeTs (action : String)
  | gatewayCall (metricType : String)
  | writeStats
  deriving DecidableEq, Repr

/-- Outcome of `post_sampling_action`: a 200 response carrying the action
and its timestamp, an error response with its HTTP status code and message,
or an uncaught exception (Flask turns it into a 500). -/
inductive Res where
  | ok (action : String) (timestamp : Int)
  | err (code : Nat) (msg : String)
  | exn
  deriving DecidableEq, Repr

/-- A gateway oracle: for each metric-series name, either a failure of the
instant query or its result rows. -/
abbrev Gw := String → Except Unit (List Row)

/-! ## Sampling state machine (`app.py` lines 29-46, 77-90, 99-135) -/

/-- Translation of `_exist_ongoing_sampling` (`app.py` lines 34-46):
no begin marker → `false`; begin and end markers → `begin > end`;
begin marker only → `true`. -/
def exist_ongoing_sampling (st : St) : Bool :=
  match st.beginTs with
  | none => false
  | some b =>
    match st.endTs with
    | some e => b > e
    | none => true

/-- Storage events emitted by one evaluation of `_exist_ongoing_sampling`:
the existence checks and, when both markers exist, the two reads. -/
def ongoingTrace (st : St) : List Ev :=
  match st.beginTs with
  | none => [Ev.existsTs "begin"]
  | some _ =>
    match st.endTs with
    | some _ => [Ev.existsTs "begin", Ev.existsTs "end", Ev.readTs "begin", Ev.readTs "end"]
    | none => [Ev.existsTs "begin", Ev.existsTs "end"]

/-- Translation of `_save_timestamp` (`app.py` lines 77-83): overwrite the
marker for `action` with the current epoch second `t`. -/
def saveTs (st : St) (action : String) (t : Int) : St :=
  if action == "begin" then { st with beginTs := some t }
  else if action == "end" then { st with endTs := some t }
  else st

/-! ## Metric capture (`app.py` lines 256-307) -/

/-- Python truthiness test `not x` for an optional string label:
true on `None` and on the empty string. -/
def pyFalsy : Option String → Bool
  | none => true
  | some s => s.isEmpty

/-- Match `^p` (when `needDigit` is false) or `^p\d+` (when true) against a
character list, as `re.match` anchors at the start and leaves the tail free. -/
def matchPfx (needDigit : Bool) : List Char → List Char → Bool
  | [], s =>
    if needDigit then
      match s with
      | c :: _ => c.isDigit
      | [] => false
    else true
  | c :: p, d :: s => c == d && matchPfx needDigit p s
  | _ :: _, [] => false

/-- The `ignored_ifname_patterns` denylist (`app.py` lines 276-286), each
pattern as (needs-digit?, literal prefix). -/
def denyPats : List (Bool × String) :=
  [(true, "erspan"), (true, "gre"), (true, "gretap"), (true, "ip6tnl"),
   (false, "lsi"), (true, "sit"), (true, "tunl"), (false, "irb"), (false, "eth0")]

/-- `any(re.match(pattern, interface) for pattern in ignored_ifname_patterns)`
(`app.py` line 297). -/
def denyMatch (s : String) : Bool :=
  denyPats.any (fun p => matchPfx p.1 p.2.data s.data)

/-- `metrics[device][interface][metric_type] = value` on the defaultdict
(`app.py` line 305): auto-create the nested dicts, then assign. -/
def insertStat (acc : Stats) (d i m : String) (v : ℚ) : Stats :=
  let dm := (lookupS acc d).getD []
  let im := (lookupS dm i).getD []
  insertKV acc d (insertKV dm i (insertKV im m v))

/-- The body of the row loop in `_fetch_sampled_state_stats`
(`app.py` lines 292-305): skip rows with a falsy interface label, a
denylisted interface, or a falsy device label; otherwise insert the value. -/
def processRow (mt : String) (acc : Stats) (r : Row) : Stats :=
  if pyFalsy r.interface then acc
  else if denyMatch (r.interface.getD "") then acc
  else if pyFalsy r.device then acc
  else insertStat acc (r.device.getD "") (r.interface.getD "") mt r.value

/-- The keys of the `queries` dict, in iteration order (`app.py` lines 262-269). -/
def metricTypes : List String :=
  ["RX_BPS_AVG", "RX_BPS_MAX", "RX_BPS_MIN", "TX_BPS_AVG", "TX_BPS_MAX", "TX_BPS_MIN"]

/-- The series loop of `_fetch_sampled_state_stats` (`app.py` lines 290-305):
query each series in turn; a failing gateway call raises out of the whole
capture; row insertions accumulate into one tree.  Also returns the gateway
calls attempted, in order. -/
def fetchGo (gw : Gw) : List String → Stats → Except Unit Stats × List Ev
  | [], acc => (Except.ok acc, [])
  | mt :: rest, acc =>
    match gw mt with
    | Except.error e => (Except.error e, [Ev.gatewayCall mt])
    | Except.ok rows =>
      let out := fetchGo gw rest (rows.foldl (fun a r => processRow mt a r) acc)
      (out.1, Ev.gatewayCall mt :: out.2)

/-- Translation of `_fetch_sampled_state_stats` (`app.py` lines 256-307),
with the Prometheus instant query abstracted into the oracle `gw`. -/
def fetchSampledStateStats (gw : Gw) : Except Unit Stats × List Ev :=
  fetchGo gw metricTypes []

/-! ## The sampling action handler (`app.py` lines 99-135) -/

/-- Translation of `post_sampling_action` (`app.py` lines 102-135).
`body = none` models a non-JSON request; `body = some a` a JSON body whose
`action` field is `a`.  `t` is the current epoch second that
`_save_timestamp` would write.  Returns the response, the store after the
request, and the trace of storage/gateway events. -/
def post_sampling_action (st : St) (t : Int) (body : Option String) (gw : Gw) :
    Res × St × List Ev :=
  match body with
  | none => (Res.err 400 "request is not json", st, [])
  | some action =>
    if !(action == "begin" || action == "end") then
      (Res.err 400 ("action `" ++ action ++ "` is not defined"), st, [])
    else if action == "begin" && exist_ongoing_sampling st then
      (Res.err 400 "sampling has already began. post action=end to complete the running sampling before begin.",
       st, ongoingTrace st)
    else if action == "end" && !exist_ongoing_sampling st then
      (Res.err 404 "sampling does not begin. begin at first to post action=begin",
       st, ongoingTrace st)
    else
      let st1 := saveTs st action t
      let tr1 := ongoingTrace st ++ [Ev.writeTs action]
      if action == "end" then
        match st1.beginTs with
        | none => (Res.exn, st1, tr1 ++ [Ev.readTs "begin"])
        | some _ =>
          let fo := fetchSampledStateStats gw
          let tr2 := tr1 ++ [Ev.readTs "begin", Ev.readTs "end"] ++ fo.2
          match fo.1 with
          | Except.error _ => (Res.exn, st1, tr2)
          | Except.ok tree =>
            let st2 := { st1 with stats := some tree }
            (Res.ok action t, st2, tr2 ++ [Ev.writeStats, Ev.readTs action])
      else
        (Res.ok action t, st1, tr1 ++ [Ev.readTs action])

/-! ## Snapshot statistics endpoint (`app.py` lines 64-75, 162-176) -/

/-- The route's guard `if not state_stats` (`app.py` line 167) composed with
`_load_state_stats` returning `None` for a missing file: truthiness, so an
empty dict is treated like a missing one. -/
def pyFalsyStats : Option Stats → Bool
  | none => true
  | some s => s.isEmpty

/-- Translation of `get_sampled_state_stats` (`app.py` lines 162-176):
the HTTP status and the tree included in the response, if any. -/
def get_sampled_state_stats (stats : Option Stats) : Nat × Option Stats :=
  if pyFalsyStats stats then (404, none) else (200, stats)

/-! ## Snapshot diff engine (`app.py` lines 178-254) -/

/-- The query-filter guard `if target and key != target: continue`
(`app.py` lines 205, 214): skip only when the filter value is truthy
(present and non-empty) and differs from the key. -/
def skipFilter (t : Option String) (k : String) : Bool :=
  match t with
  | none => false
  | some s => !s.isEmpty && k != s

/-- The metric body of the diff loop (`app.py` lines 228-242): `None` when
the metric is absent on the source side; otherwise a dict with `"counter"`
set to `(dest - src) / scale` and `"ratio"` set to `None` when the source
value is `0.0`, else to `dest / src`. -/
def computeMetricEntry (scale : ℚ) (srcM : MetricMap) (m : String) (dv : ℚ) :
    DiffEntry :=
  match lookupS srcM m with
  | none => none
  | some sv =>
    let e1 := insertKV ([] : List (String × Option ℚ)) "counter" (some ((dv - sv) / scale))
    let e2 :=
      if sv = 0 then insertKV e1 "ratio" none
      else insertKV e1 "ratio" (some (dv / sv))
    some e2

/-- The metric loop (`app.py` lines 227-242) over one interface's metrics. -/
def diffMetrics (scale : ℚ) (srcM dstM : MetricMap) : List (String × DiffEntry) :=
  dstM.foldl (fun acc p => insertKV acc p.1 (computeMetricEntry scale srcM p.1 p.2)) []

/-- `diff[dest_device][dest_interface] = ...` with lazy creation of the
device dict (`app.py` lines 222-225). -/
def insert2 (acc : DiffT) (d i : String) (v : List (String × DiffEntry)) : DiffT :=
  insertKV acc d (insertKV ((lookupS acc d).getD []) i v)

/-- The interface loop body of `get_state_stats_diff` (`app.py` lines
213-242): skip interfaces outside the filter or absent from the source
device, otherwise assign the per-metric diff dict. -/
def diffIfStep (ti : Option String) (scale : ℚ) (d : String) (srcIf : IfMap)
    (acc2 : DiffT) (ip : String × MetricMap) : DiffT :=
  if skipFilter ti ip.1 then acc2
  else
    match lookupS srcIf ip.1 with
    | none => acc2
    | some srcM => insert2 acc2 d ip.1 (diffMetrics scale srcM ip.2)

/-- The device loop body of `get_state_stats_diff` (`app.py` lines
204-242): skip devices outside the filter or absent from the source tree,
otherwise run the interface loop. -/
def diffDevStep (tn ti : Option String) (scale : ℚ) (src : Stats)
    (acc : DiffT) (dp : String × IfMap) : DiffT :=
  if skipFilter tn dp.1 then acc
  else
    match lookupS src dp.1 with
    | none => acc
    | some srcIf => dp.2.foldl (diffIfStep ti scale dp.1 srcIf) acc

/-- Translation of the diff computation of `get_state_stats_diff`
(`app.py` lines 189-243): walk the destination tree's devices and
interfaces, apply the optional node/interface filters, skip devices and
interfaces absent from the source tree, and fill in the per-metric entries. -/
def get_state_stats_diff (tn ti : Option String) (scale : ℚ) (src dst : Stats) :
    DiffT :=
  dst.foldl (diffDevStep tn ti scale src) []

/-! ## Specification-side helpers used only in theorem statements -/

/-- Lookup through two levels of nesting. -/
def lookup2 {α : Type} (t : List (String × List (String × α))) (d i : String) :
    Option α :=
  (lookupS t d).bind (fun m => lookupS m i)

/-- Lookup through three levels of nesting. -/
def lookup3 {α : Type} (t : List (String × List (String × List (String × α))))
    (d i m : String) : Option α :=
  (lookup2 t d i).bind (fun mm => lookupS mm m)

/-- A gateway row qualifies when its interface label is present, non-empty
and not denylisted, and its device label is present and non-empty. -/
def qualRow (r : Row) : Bool :=
  !pyFalsy r.interface && !denyMatch (r.interface.getD "") && !pyFalsy r.device

/-- The six series paired with their rows, flattened in processing order. -/
def flatSeries (series : List (String × List Row)) : List (String × Row) :=
  series.flatMap (fun p => p.2.map (fun r => (p.1, r)))

/-- The value of the last qualifying row carrying the given device,
interface and metric-series keys ("last write wins"). -/
def lastQual (l : List (String × Row)) (d i m : String) : Option ℚ :=
  l.foldl (fun o p =>
    if qualRow p.2 && p.1 == m && p.2.device == some d && p.2.interface == some i then
      some p.2.value
    else o) none

/-- The capture loop run on given per-series rows with no gateway failure. -/
def buildStats (series : List (String × List Row)) : Stats :=
  series.foldl (fun acc p => p.2.foldl (fun a r => processRow p.1 a r) acc) []

/-- The shape every metric diff entry is claimed to have: null, or a dict
holding exactly the keys "counter" and "ratio". -/
def entryShape (e : DiffEntry) : Prop :=
  e = none ∨ ∃ c r, e = some [("counter", c), ("ratio", r)]

/-- Well-formedness of a stored statistics tree: dict keys are unique at
every level, as they are in any tree decoded from JSON objects. -/
def WFStats (s : Stats) : Prop :=
  (keysOf s).Nodup ∧ ∀ p ∈ s, (keysOf p.2).Nodup ∧ ∀ q ∈ p.2, (keysOf q.2).Nodup

instance : DecidablePred WFStats := fun s => by
  unfold WFStats; infer_instance

/-! ## Association-list lemmas -/

theorem lookupS_insertKV_self {α : Type} (l : List (String × α)) (k : String) (v : α) :
    lookupS (insertKV l k v) k = some v := by
  induction l with
  | nil => simp [insertKV, lookupS]
  | cons p rest ih =>
    by_cases h : p.1 = k
    · simp [insertKV, h, lookupS]
    · simp [insertKV, h, lookupS, ih]

theorem lookupS_insertKV_ne {α : Type} (l : List (String × α)) (k k' : String) (v : α)
    (h : k' ≠ k) : lookupS (insertKV l k v) k' = lookupS l k' := by
  induction l with
  | nil => simp [insertKV, lookupS, Ne.symm h]
  | cons p rest ih =>
    by_cases hp : p.1 = k
    · simp [insertKV, hp, lookupS, Ne.symm h, hp ▸ (Ne.symm h)]
    · simp only [insertKV, hp, if_false, lookupS]
      by_cases hp' : p.1 = k'
      · simp [hp']
      · simp [hp', ih]

theorem mem_insertKV {α : Type} {l : List (String × α)} {k : String} {v : α}
    {p : String × α} (h : p ∈ insertKV l k v) : p = (k, v) ∨ p ∈ l := by
  induction l with
  | nil => simpa [insertKV] using h
  | cons q rest ih =>
    by_cases hq : q.1 = k
    · simp only [insertKV, hq, if_true] at h
      rcases List.mem_cons.1 h with h | h
      · exact Or.inl h
      · exact Or.inr (List.mem_cons_of_mem _ h)
    · simp only [insertKV, hq, if_false, List.mem_cons] at h
      rcases h with h | h
      · exact Or.inr (h ▸ List.mem_cons_self _ _)
      · rcases ih h with h' | h'
        · exact Or.inl h'
        · exact Or.inr (List.mem_cons_of_mem _ h')

theorem lookupS_eq_some_mem {α : Type} {l : List (String × α)} {k : String} {v : α}
    (h : lookupS l k = some v) : (k, v) ∈ l := by
  induction l with
  | nil => simp [lookupS] at h
  | cons p rest ih =>
    by_cases hp : p.1 = k
    · simp only [lookupS, hp, if_true, Option.some.injEq] at h
      exact List.mem_cons.2 (Or.inl (Prod.ext_iff.2 ⟨hp.symm, h.symm⟩))
    · simp only [lookupS, hp, if_false] at h
      exact List.mem_cons_of_mem _ (ih h)

theorem lookupS_of_mem_nodup {α : Type} {l : List (String × α)} {k : String} {v : α}
    (hn : (keysOf l).Nodup) (hm : (k, v) ∈ l) : lookupS l k = some v := by
  induction l with
  | nil => simp at hm
  | cons p rest ih =>
    simp only [keysOf, List.map_cons, List.nodup_cons] at hn
    rcases List.mem_cons.1 hm with h | h
    · simp [lookupS, ← h]
    · have hk : p.1 ≠ k := by
        intro he
        exact hn.1 (he ▸ (List.mem_map_of_mem Prod.fst h))
      simp only [lookupS, hk, if_false]
      exact ih hn.2 h

/-! ## Claim C1: the open-interval predicate -/

/-- C1: for every (network, snapshot) state, the sampling state is Open
(the code's `_exist_ongoing_sampling` returns true) iff a begin marker
exists and either no end marker exists or the stored end timestamp is
strictly below the stored begin timestamp; and whenever both markers exist
with begin ≤ end (including equality) the state is Idle. -/
theorem C1_open_state_predicate (st : St) :
    (exist_ongoing_sampling st = true ↔
      ∃ b, st.beginTs = some b ∧
        (st.endTs = none ∨ ∃ e, st.endTs = some e ∧ e < b)) ∧
    (∀ b e, st.beginTs = some b → st.endTs = some e → b ≤ e →
      exist_ongoing_sampling st = false) := by
  obtain ⟨bo, eo, so⟩ := st
  cases bo with
  | none => cases eo <;> simp [exist_ongoing_sampling]
  | some b =>
    cases eo with
    | none => simp [exist_ongoing_sampling]
    | some e =>
      constructor
      · simp only [exist_ongoing_sampling]
        constructor
        · intro h
          refine ⟨b, rfl, Or.inr ⟨e, rfl, ?_⟩⟩
          exact lt_of_not_le (fun hle => by simp [not_lt.2 hle] at h)
        · rintro ⟨b', hb', h⟩
          obtain rfl : b = b' := by simpa using hb'
          rcases h with h | ⟨e', he', hlt⟩
          · simp at h
          · obtain rfl : e = e' := by simpa using he'
            simpa using hlt
      · intro b' e' hb' he' hle
        obtain rfl : b = b' := by simpa using hb'
        obtain rfl : e = e' := by simpa using he'
        simp only [exist_ongoing_sampling]
        simpa using not_lt.2 hle

/-- Witness for C1 at the concrete state begin = 3, end = 5. -/
theorem C1_open_state_predicate_witness :
    exist_ongoing_sampling ⟨some 3, some 5, none⟩ = false :=
  (C1_open_state_predicate ⟨some 3, some 5, none⟩).2 3 5 rfl rfl (by decide)

/-! ## Claim C9: unknown actions fail before any state inspection -/

/-- C9: for every action value other than exactly "begin" or "end", the
handler answers a 400 validation error, the store is unchanged, and the
event trace is empty: no marker is read or written and the open-interval
predicate is never evaluated. -/
theorem C9_unknown_action_rejected_early (st : St) (t : Int) (gw : Gw) (a : String)
    (h1 : a ≠ "begin") (h2 : a ≠ "end") :
    post_sampling_action st t (some a) gw =
      (Res.err 400 ("action `" ++ a ++ "` is not defined"), st, []) := by
  simp [post_sampling_action, h1, h2]

/-- Witness for C9 at the concrete action "reset". -/
theorem C9_unknown_action_rejected_early_witness :
    post_sampling_action ⟨none, none, none⟩ 0 (some "reset") (fun _ => Except.ok []) =
      (Res.err 400 ("action `" ++ "reset" ++ "` is not defined"),
       (⟨none, none, none⟩ : St), []) :=
  C9_unknown_action_rejected_early ⟨none, none, none⟩ 0 (fun _ => Except.ok []) "reset"
    (by decide) (by decide)

/-! ## Claim C6: validation failures leave the store untouched -/

/-- C6: every request that fails validation — non-JSON body, unknown
action, begin while Open, end while Idle — produces an error response,
writes no timestamp marker, and leaves the stored state unchanged; the
trace of such a request contains no write event at all. -/
theorem C6_validation_failure_fails_closed (st : St) (t : Int) (gw : Gw) :
    (post_sampling_action st t none gw = (Res.err 400 "request is not json", st, [])) ∧
    (∀ a, a ≠ "begin" → a ≠ "end" →
      post_sampling_action st t (some a) gw =
        (Res.err 400 ("action `" ++ a ++ "` is not defined"), st, [])) ∧
    (exist_ongoing_sampling st = true →
      post_sampling_action st t (some "begin") gw =
        (Res.err 400 "sampling has already began. post action=end to complete the running sampling before begin.",
         st, ongoingTrace st)) ∧
    (exist_ongoing_sampling st = false →
      post_sampling_action st t (some "end") gw =
        (Res.err 404 "sampling does not begin. begin at first to post action=begin",
         st, ongoingTrace st)) ∧
    (∀ a, Ev.writeTs a ∉ ongoingTrace st) ∧ Ev.writeStats ∉ ongoingTrace st := by
  refine ⟨rfl, ?_, ?_, ?_, ?_, ?_⟩
  · intro a h1 h2
    simp [post_sampling_action, h1, h2]
  · intro h
    simp [post_sampling_action, h]
  · intro h
    simp [post_sampling_action, h]
  · intro a
    obtain ⟨bo, eo, so⟩ := st
    cases bo <;> cases eo <;> simp [ongoingTrace]
  · obtain ⟨bo, eo, so⟩ := st
    cases bo <;> cases eo <;> simp [ongoingTrace]

/-- Witness for C6: a begin while Open (begin marker only) is rejected with
the store unchanged. -/
theorem C6_validation_failure_fails_closed_witness :
    post_sampling_action ⟨some 1, none, none⟩ 2 (some "begin") (fun _ => Except.ok []) =
      (Res.err 400 "sampling has already began. post action=end to complete the running sampling before begin.",
       (⟨some 1, none, none⟩ : St), ongoingTrace ⟨some 1, none, none⟩) :=
  (C6_validation_failure_fails_closed ⟨some 1, none, none⟩ 2 (fun _ => Except.ok [])).2.2.1 rfl

/-! ## Claim C2: conflict and not-found on out-of-order actions -/

/-- A begin while not Open succeeds: it records the begin marker and
answers 200 with the written timestamp. -/
theorem post_begin_ok (st : St) (t : Int) (gw : Gw)
    (h : exist_ongoing_sampling st = false) :
    post_sampling_action st t (some "begin") gw =
      (Res.ok "begin" t, { st with beginTs := some t },
       ongoingTrace st ++ [Ev.writeTs "begin", Ev.readTs "begin"]) := by
  simp [post_sampling_action, h, saveTs]

/-- The open predicate after overwriting the begin marker with `t`. -/
theorem exist_ongoing_after_begin (st : St) (t : Int) :
    exist_ongoing_sampling { st with beginTs := some t } =
      (match st.endTs with
       | none => true
       | some e => decide (e < t)) := by
  obtain ⟨bo, eo, so⟩ := st
  cases eo with
  | none => simp [exist_ongoing_sampling]
  | some e => simp [exist_ongoing_sampling, gt_iff_lt]

/-- C2 (amended): a begin while Open answers a 400 conflict and an end
while not Open answers 404 (in particular, end with no begin marker at all
answers 404).  A repeated begin with no intervening end conflicts whenever
no end marker is stored, or the stored end timestamp is strictly below the
first begin's recorded timestamp; but when the first begin is recorded at
or before a stale end marker (possible when both fall in the same clock
second), the repeated begin succeeds instead of conflicting. -/
theorem C2_action_ordering_errors (st : St) (t : Int) (gw : Gw) :
    (exist_ongoing_sampling st = true →
      (post_sampling_action st t (some "begin") gw).1 =
        Res.err 400 "sampling has already began. post action=end to complete the running sampling before begin.") ∧
    (exist_ongoing_sampling st = false →
      (post_sampling_action st t (some "end") gw).1 =
        Res.err 404 "sampling does not begin. begin at first to post action=begin") ∧
    (st.beginTs = none →
      (post_sampling_action st t (some "end") gw).1 =
        Res.err 404 "sampling does not begin. begin at first to post action=begin") ∧
    (exist_ongoing_sampling st = false →
      (st.endTs = none ∨ ∃ e, st.endTs = some e ∧ e < t) →
      ∀ t' gw',
        (post_sampling_action (post_sampling_action st t (some "begin") gw).2.1 t'
            (some "begin") gw').1 =
          Res.err 400 "sampling has already began. post action=end to complete the running sampling before begin.") ∧
    (∀ e, st.endTs = some e → exist_ongoing_sampling st = false → t ≤ e →
      ∀ t' gw',
        (post_sampling_action (post_sampling_action st t (some "begin") gw).2.1 t'
            (some "begin") gw').1 = Res.ok "begin" t') := by
  refine ⟨?_, ?_, ?_, ?_, ?_⟩
  · intro h
    simp [post_sampling_action, h]
  · intro h
    simp [post_sampling_action, h]
  · intro h
    have hno : exist_ongoing_sampling st = false := by
      simp [exist_ongoing_sampling, h]
    simp [post_sampling_action, hno]
  · intro h hor t' gw'
    rw [post_begin_ok st t gw h]
    have hopen : exist_ongoing_sampling { st with beginTs := some t } = true := by
      rw [exist_ongoing_after_begin]
      rcases hor with he | ⟨e, he, hlt⟩ <;> simp [he]
      simpa using hlt
    simp [post_sampling_action, hopen]
  · intro e he h hle t' gw'
    rw [post_begin_ok st t gw h]
    have hidle : exist_ongoing_sampling { st with beginTs := some t } = false := by
      rw [exist_ongoing_after_begin]
      simp [he, not_lt.2 hle]
    rw [post_begin_ok _ t' gw' hidle]

/-- C2 counterexample: a full run from the initial state with
non-decreasing wall-clock seconds — begin at 4, end at 5, begin again
within second 5, then begin at 6 — in which the last two begin actions
both succeed consecutively, refuting "repeating begin with no intervening
end always conflicts". -/
theorem C2_counterexample_double_begin_succeeds :
    (post_sampling_action ⟨none, none, none⟩ 4 (some "begin")
        (fun _ => Except.ok [])).1 = Res.ok "begin" 4 ∧
    (post_sampling_action ⟨some 4, none, none⟩ 5 (some "end")
        (fun _ => Except.ok [])).1 = Res.ok "end" 5 ∧
    (post_sampling_action ⟨some 4, none, none⟩ 5 (some "end")
        (fun _ => Except.ok [])).2.1 = ⟨some 4, some 5, some []⟩ ∧
    (post_sampling_action ⟨some 4, some 5, some []⟩ 5 (some "begin")
        (fun _ => Except.ok [])).1 = Res.ok "begin" 5 ∧
    (post_sampling_action ⟨some 4, some 5, some []⟩ 5 (some "begin")
        (fun _ => Except.ok [])).2.1 = ⟨some 5, some 5, some []⟩ ∧
    (post_sampling_action ⟨some 5, some 5, some []⟩ 6 (some "begin")
        (fun _ => Except.ok [])).1 = Res.ok "begin" 6 := by
  refine ⟨rfl, rfl, rfl, rfl, rfl, rfl⟩

/-- Witness for C2 (amended): from a fresh state, begin at 1 then a second
begin at 2 conflicts. -/
theorem C2_action_ordering_errors_witness :
    (post_sampling_action
        (post_sampling_action ⟨none, none, none⟩ 1 (some "begin")
          (fun _ => Except.ok [])).2.1 2 (some "begin") (fun _ => Except.ok [])).1 =
      Res.err 400 "sampling has already began. post action=end to complete the running sampling before begin." :=
  (C2_action_ordering_errors ⟨none, none, none⟩ 1 (fun _ => Except.ok [])).2.2.2.1 rfl
    (Or.inl rfl) 2 (fun _ => Except.ok [])

/-! ## Claim C7: the snapshot-statistics endpoint -/

/-- C7 counterexample: the endpoint answers 404 on an empty stored tree
even though one has been captured, so absence is not the only not-found
condition.  An empty tree is reachable: an end whose gateway returns no
rows stores exactly `some []`. -/
theorem C7_counterexample_empty_tree_is_404 :
    (get_sampled_state_stats (some [])).1 = 404 ∧
    (some ([] : Stats)) ≠ none ∧
    (post_sampling_action ⟨some 1, none, none⟩ 2 (some "end")
        (fun _ => Except.ok [])).2.1.stats = some [] := by
  refine ⟨rfl, by simp, rfl⟩

/-- C7 (amended): the GET snapshot-statistics operation answers 404 exactly
when no statistics tree is stored or the stored tree is empty (the route
tests Python truthiness, so an empty dict is treated like a missing one);
for a stored non-empty tree it answers 200 with that tree. -/
theorem C7_get_stats_not_found_amended (stats : Option Stats) :
    ((get_sampled_state_stats stats).1 = 404 ↔
      (stats = none ∨ stats = some [])) ∧
    (∀ s, stats = some s → s ≠ [] → get_sampled_state_stats stats = (200, some s)) := by
  cases stats with
  | none => simp [get_sampled_state_stats, pyFalsyStats]
  | some s =>
    cases s with
    | nil => simp [get_sampled_state_stats, pyFalsyStats]
    | cons p rest =>
      constructor
      · simp [get_sampled_state_stats, pyFalsyStats]
      · rintro s' hs' -
        obtain rfl : p :: rest = s' := by simpa using hs'
        simp [get_sampled_state_stats, pyFalsyStats]

/-- Witness for C7 (amended): a stored one-device tree is answered with 200. -/
theorem C7_get_stats_not_found_amended_witness :
    get_sampled_state_stats (some [("leaf1", [])]) = (200, some [("leaf1", [])]) :=
  (C7_get_stats_not_found_amended (some [("leaf1", [])])).2 [("leaf1", [])] rfl (by simp)

/-! ## Trace helper lemmas -/

theorem ongoingTrace_events (st : St) :
    ∀ e ∈ ongoingTrace st, (∃ a, e = Ev.existsTs a) ∨ ∃ a, e = Ev.readTs a := by
  obtain ⟨bo, eo, so⟩ := st
  cases bo <;> cases eo <;> intro e he <;>
    simp only [ongoingTrace, List.mem_cons, List.mem_singleton, List.not_mem_nil,
      or_false] at he <;>
    rcases he with rfl | he <;>
    first
      | exact Or.inl ⟨_, rfl⟩
      | (rcases he with rfl | he <;>
          first
            | exact Or.inl ⟨_, rfl⟩
            | exact Or.inr ⟨_, rfl⟩
            | (rcases he with rfl | rfl <;>
                [exact Or.inr ⟨_, rfl⟩; exact Or.inr ⟨_, rfl⟩]))

theorem writeTs_not_mem_ongoingTrace (st : St) (a : String) :
    Ev.writeTs a ∉ ongoingTrace st := by
  intro h
  rcases ongoingTrace_events st _ h with ⟨a', h'⟩ | ⟨a', h'⟩ <;> cases h'

theorem writeStats_not_mem_ongoingTrace (st : St) :
    Ev.writeStats ∉ ongoingTrace st := by
  intro h
  rcases ongoingTrace_events st _ h with ⟨a', h'⟩ | ⟨a', h'⟩ <;> cases h'

theorem gatewayCall_not_mem_ongoingTrace (st : St) (mt : String) :
    Ev.gatewayCall mt ∉ ongoingTrace st := by
  intro h
  rcases ongoingTrace_events st _ h with ⟨a', h'⟩ | ⟨a', h'⟩ <;> cases h'

theorem fetchGo_events (gw : Gw) :
    ∀ (l : List String) (acc : Stats) (e : Ev), e ∈ (fetchGo gw l acc).2 →
      ∃ mt, e = Ev.gatewayCall mt := by
  intro l
  induction l with
  | nil => intro acc e he; simp [fetchGo] at he
  | cons mt rest ih =>
    intro acc e he
    cases hg : gw mt with
    | error err =>
      simp only [fetchGo, hg, List.mem_singleton] at he
      exact ⟨mt, he⟩
    | ok rows =>
      simp only [fetchGo, hg, List.mem_cons] at he
      rcases he with rfl | he
      · exact ⟨mt, rfl⟩
      · exact ih _ e he

theorem writeStats_not_mem_fetch (gw : Gw) :
    Ev.writeStats ∉ (fetchSampledStateStats gw).2 := by
  intro h
  rcases fetchGo_events gw metricTypes [] _ h with ⟨mt, h'⟩
  cases h'

theorem writeTs_not_mem_fetch (gw : Gw) (a : String) :
    Ev.writeTs a ∉ (fetchSampledStateStats gw).2 := by
  intro h
  rcases fetchGo_events gw metricTypes [] _ h with ⟨mt, h'⟩
  cases h'

/-- Splitting an append along a `x :: _` decomposition when `x` does not
occur in the left part. -/
theorem append_eq_cons_split {γ : Type} {A B pfx sfx : List γ} {x : γ}
    (h : A ++ B = pfx ++ x :: sfx) (hx : x ∉ A) :
    ∃ B1 B2, B = B1 ++ x :: B2 ∧ pfx = A ++ B1 ∧ sfx = B2 := by
  induction A generalizing pfx with
  | nil => exact ⟨pfx, sfx, by simpa using h, by simp, rfl⟩
  | cons a A ih =>
    cases pfx with
    | nil =>
      have := h
      simp only [List.nil_append, List.cons_append, List.cons.injEq] at this
      exact absurd (this.1 ▸ List.mem_cons_self a A) hx
    | cons p pfx' =>
      simp only [List.cons_append, List.cons.injEq] at h
      have hx' : x ∉ A := fun hm => hx (List.mem_cons_of_mem _ hm)
      obtain ⟨B1, B2, hB, hp, hs⟩ := ih h.2 hx'
      exact ⟨B1, B2, hB, by rw [h.1, hp, List.cons_append], hs⟩

/-- The handler's end transition, unfolded, when the interval is Open and
some series query fails. -/
theorem post_end_eq_error (st : St) (t : Int) (gw : Gw) (err : Unit)
    (h : exist_ongoing_sampling st = true)
    (hf : (fetchSampledStateStats gw).1 = Except.error err) :
    post_sampling_action st t (some "end") gw =
      (Res.exn, { st with endTs := some t },
       ongoingTrace st ++ [Ev.writeTs "end", Ev.readTs "begin", Ev.readTs "end"] ++
         (fetchSampledStateStats gw).2) := by
  obtain ⟨bo, eo, so⟩ := st
  cases bo with
  | none => simp [exist_ongoing_sampling] at h
  | some b => simp [post_sampling_action, h, saveTs, hf]

/-- The handler's end transition, unfolded, when the interval is Open and
the whole capture succeeds. -/
theorem post_end_eq_ok (st : St) (t : Int) (gw : Gw) (tree : Stats)
    (h : exist_ongoing_sampling st = true)
    (hf : (fetchSampledStateStats gw).1 = Except.ok tree) :
    post_sampling_action st t (some "end") gw =
      (Res.ok "end" t, { st with endTs := some t, stats := some tree },
       ongoingTrace st ++ [Ev.writeTs "end", Ev.readTs "begin", Ev.readTs "end"] ++
         (fetchSampledStateStats gw).2 ++ [Ev.writeStats, Ev.readTs "end"]) := by
  obtain ⟨bo, eo, so⟩ := st
  cases bo with
  | none => simp [exist_ongoing_sampling] at h
  | some b => simp [post_sampling_action, h, saveTs, hf]

/-! ## Claim C5: end marker before capture, stats only after success -/

/-- C5: during an end transition from an Open interval, the end marker is
written (and still holds the end time `t` in the final store) whatever the
gateway does; when any metric-series query fails the handler raises without
persisting any statistics tree, leaving the previous tree and the fresh end
marker in place; when the capture succeeds the captured tree is persisted;
in the event trace every gateway call happens after the end-marker write,
and no gateway call happens after the statistics write. -/
theorem C5_end_transition_effect_order (st : St) (t : Int) (gw : Gw)
    (h : exist_ongoing_sampling st = true) :
    ((post_sampling_action st t (some "end") gw).2.1.endTs = some t) ∧
    ((post_sampling_action st t (some "end") gw).1 = Res.exn →
      (post_sampling_action st t (some "end") gw).2.1.stats = st.stats ∧
      Ev.writeStats ∉ (post_sampling_action st t (some "end") gw).2.2) ∧
    (∀ tree, (fetchSampledStateStats gw).1 = Except.ok tree →
      (post_sampling_action st t (some "end") gw).1 = Res.ok "end" t ∧
      (post_sampling_action st t (some "end") gw).2.1.stats = some tree) ∧
    (∀ pfx sfx mt,
      (post_sampling_action st t (some "end") gw).2.2 = pfx ++ Ev.gatewayCall mt :: sfx →
      Ev.writeTs "end" ∈ pfx) ∧
    (∀ pfx sfx,
      (post_sampling_action st t (some "end") gw).2.2 = pfx ++ Ev.writeStats :: sfx →
      ∀ mt, Ev.gatewayCall mt ∉ sfx) := by
  cases hf : (fetchSampledStateStats gw).1 with
  | error err =>
    rw [post_end_eq_error st t gw err h hf]
    refine ⟨rfl, ?_, ?_, ?_, ?_⟩
    · intro _
      refine ⟨rfl, ?_⟩
      intro hmem
      rcases List.mem_append.1 hmem with hmem | hmem
      · rcases List.mem_append.1 hmem with hmem | hmem
        · exact writeStats_not_mem_ongoingTrace st hmem
        · simp at hmem
      · exact writeStats_not_mem_fetch gw hmem
    · intro tree htree
      exact absurd htree (by simp)
    · intro pfx sfx mt hdec
      have hnotmem :
          Ev.gatewayCall mt ∉
            ongoingTrace st ++ [Ev.writeTs "end", Ev.readTs "begin", Ev.readTs "end"] := by
        intro hmem
        rcases List.mem_append.1 hmem with hmem | hmem
        · exact gatewayCall_not_mem_ongoingTrace st mt hmem
        · simp at hmem
      obtain ⟨B1, B2, _, hp, _⟩ := append_eq_cons_split hdec hnotmem
      rw [hp]
      exact List.mem_append.2 (Or.inl (by simp))
    · intro pfx sfx hdec mt hmem
      have hdec' :
          ongoingTrace st ++ [Ev.writeTs "end", Ev.readTs "begin", Ev.readTs "end"] ++
            (fetchSampledStateStats gw).2 = pfx ++ Ev.writeStats :: sfx := hdec
      have hmem' : Ev.writeStats ∈
          ongoingTrace st ++ [Ev.writeTs "end", Ev.readTs "begin", Ev.readTs "end"] ++
            (fetchSampledStateStats gw).2 := by
        rw [hdec']
        exact List.mem_append.2 (Or.inr (List.mem_cons_self _ _))
      rcases List.mem_append.1 hmem' with hws | hws
      · rcases List.mem_append.1 hws with hws | hws
        · exact writeStats_not_mem_ongoingTrace st hws
        · simp at hws
      · exact writeStats_not_mem_fetch gw hws
  | ok tree =>
    rw [post_end_eq_ok st t gw tree h hf]
    refine ⟨rfl, ?_, ?_, ?_, ?_⟩
    · intro hres
      exact absurd hres (by simp)
    · intro tree' htree'
      obtain rfl : tree = tree' := by simpa using htree'
      exact ⟨rfl, rfl⟩
    · intro pfx sfx mt hdec
      have hnotmem :
          Ev.gatewayCall mt ∉
            ongoingTrace st ++ [Ev.writeTs "end", Ev.readTs "begin", Ev.readTs "end"] := by
        intro hmem
        rcases List.mem_append.1 hmem with hmem | hmem
        · exact gatewayCall_not_mem_ongoingTrace st mt hmem
        · simp at hmem
      rw [List.append_assoc
        (ongoingTrace st ++ [Ev.writeTs "end", Ev.readTs "begin", Ev.readTs "end"])
        (fetchSampledStateStats gw).2 [Ev.writeStats, Ev.readTs "end"]] at hdec
      obtain ⟨B1, B2, _, hp, _⟩ := append_eq_cons_split hdec hnotmem
      rw [hp]
      exact List.mem_append.2 (Or.inl (by simp))
    · intro pfx sfx hdec mt hmem
      have hA :
          Ev.writeStats ∉
            ongoingTrace st ++ [Ev.writeTs "end", Ev.readTs "begin", Ev.readTs "end"] ++
              (fetchSampledStateStats gw).2 := by
        intro hws
        rcases List.mem_append.1 hws with hws | hws
        · rcases List.mem_append.1 hws with hws | hws
          · exact writeStats_not_mem_ongoingTrace st hws
          · simp at hws
        · exact writeStats_not_mem_fetch gw hws
      obtain ⟨B1, B2, hB, _, hs⟩ := append_eq_cons_split hdec hA
      cases B1 with
      | nil =>
        simp only [List.nil_append, List.cons.injEq] at hB
        rw [hs, ← hB.2] at hmem
        simp at hmem
      | cons b B1' =>
        simp only [List.cons_append, List.cons.injEq] at hB
        cases B1' with
        | nil => simp at hB
        | cons b' B1'' => simp at hB

/-- Witness for C5: an end at 2 from an Open state with a gateway
returning empty row lists writes the end marker and stores the empty tree. -/
theorem C5_end_transition_effect_order_witness :
    (post_sampling_action ⟨some 1, none, none⟩ 2 (some "end")
        (fun _ => Except.ok [])).2.1.endTs = some 2 :=
  (C5_end_transition_effect_order ⟨some 1, none, none⟩ 2 (fun _ => Except.ok []) rfl).1

/-! ## Diff-engine lookup lemmas -/

theorem lookup2_insert2_self (acc : DiffT) (d i : String) (v : List (String × DiffEntry)) :
    lookup2 (insert2 acc d i v) d i = some v := by
  unfold insert2 lookup2
  rw [lookupS_insertKV_self]
  simp [lookupS_insertKV_self]

theorem lookupS_insert2_ne (acc : DiffT) (d i : String) (v : List (String × DiffEntry))
    (d' : String) (h : d' ≠ d) : lookupS (insert2 acc d i v) d' = lookupS acc d' := by
  unfold insert2
  exact lookupS_insertKV_ne _ _ _ _ h

theorem lookup2_insert2_ne_if (acc : DiffT) (d i : String) (v : List (String × DiffEntry))
    (i' : String) (h : i' ≠ i) : lookup2 (insert2 acc d i v) d i' = lookup2 acc d i' := by
  unfold insert2 lookup2
  rw [lookupS_insertKV_self]
  cases hd : lookupS acc d with
  | none => simp [hd, lookupS_insertKV_ne _ _ _ _ h, lookupS, Ne.symm h]
  | some cur => simp [hd, lookupS_insertKV_ne _ _ _ _ h]

theorem diffIfStep_skip {ti : Option String} {scale : ℚ} {d : String} {srcIf : IfMap}
    {acc2 : DiffT} {ip : String × MetricMap} (h : skipFilter ti ip.1 = true) :
    diffIfStep ti scale d srcIf acc2 ip = acc2 := by
  simp [diffIfStep, h]

theorem diffIfStep_nosrc {ti : Option String} {scale : ℚ} {d : String} {srcIf : IfMap}
    {acc2 : DiffT} {ip : String × MetricMap} (h1 : skipFilter ti ip.1 = false)
    (h2 : lookupS srcIf ip.1 = none) :
    diffIfStep ti scale d srcIf acc2 ip = acc2 := by
  simp [diffIfStep, h1, h2]

theorem diffIfStep_hit {ti : Option String} {scale : ℚ} {d : String} {srcIf : IfMap}
    {acc2 : DiffT} {ip : String × MetricMap} {srcM : MetricMap}
    (h1 : skipFilter ti ip.1 = false) (h2 : lookupS srcIf ip.1 = some srcM) :
    diffIfStep ti scale d srcIf acc2 ip = insert2 acc2 d ip.1 (diffMetrics scale srcM ip.2) := by
  simp [diffIfStep, h1, h2]

theorem diffIfStep_lookup2_ne {ti : Option String} {scale : ℚ} {d : String}
    {srcIf : IfMap} {acc2 : DiffT} {ip : String × MetricMap} {i : String}
    (h : i ≠ ip.1) :
    lookup2 (diffIfStep ti scale d srcIf acc2 ip) d i = lookup2 acc2 d i := by
  by_cases hs : skipFilter ti ip.1 = true
  · rw [diffIfStep_skip hs]
  · cases hl : lookupS srcIf ip.1 with
    | none => rw [diffIfStep_nosrc (Bool.not_eq_true _ ▸ hs) hl]
    | some srcM =>
      rw [diffIfStep_hit (Bool.not_eq_true _ ▸ hs) hl]
      exact lookup2_insert2_ne_if _ _ _ _ _ h

theorem diffIfStep_lookupS_ne {ti : Option String} {scale : ℚ} {d : String}
    {srcIf : IfMap} {acc2 : DiffT} {ip : String × MetricMap} {d' : String}
    (h : d' ≠ d) :
    lookupS (diffIfStep ti scale d srcIf acc2 ip) d' = lookupS acc2 d' := by
  by_cases hs : skipFilter ti ip.1 = true
  · rw [diffIfStep_skip hs]
  · cases hl : lookupS srcIf ip.1 with
    | none => rw [diffIfStep_nosrc (Bool.not_eq_true _ ▸ hs) hl]
    | some srcM =>
      rw [diffIfStep_hit (Bool.not_eq_true _ ▸ hs) hl]
      exact lookupS_insert2_ne _ _ _ _ _ h

theorem ifFold_lookup2_frame (ti : Option String) (scale : ℚ) (d : String)
    (srcIf : IfMap) (i : String) :
    ∀ (ifm : IfMap) (acc : DiffT), i ∉ keysOf ifm →
      lookup2 (ifm.foldl (diffIfStep ti scale d srcIf) acc) d i = lookup2 acc d i := by
  intro ifm
  induction ifm with
  | nil => intro acc _; rfl
  | cons ip rest ih =>
    intro acc hni
    simp only [keysOf, List.map_cons, List.mem_cons, not_or] at hni
    rw [List.foldl_cons, ih _ (by simpa [keysOf] using hni.2)]
    exact diffIfStep_lookup2_ne hni.1

theorem ifFold_lookupS_ne (ti : Option String) (scale : ℚ) (d : String)
    (srcIf : IfMap) (d' : String) (h : d' ≠ d) :
    ∀ (ifm : IfMap) (acc : DiffT),
      lookupS (ifm.foldl (diffIfStep ti scale d srcIf) acc) d' = lookupS acc d' := by
  intro ifm
  induction ifm with
  | nil => intro acc; rfl
  | cons ip rest ih =>
    intro acc
    rw [List.foldl_cons, ih _]
    exact diffIfStep_lookupS_ne h

theorem ifFold_lookup2_main (ti : Option String) (scale : ℚ) (d : String)
    (srcIf : IfMap) (srcM : MetricMap) :
    ∀ (ifm : IfMap), (keysOf ifm).Nodup →
      ∀ (i : String) (mm : MetricMap), (i, mm) ∈ ifm →
        skipFilter ti i = false → lookupS srcIf i = some srcM →
        ∀ acc : DiffT,
          lookup2 (ifm.foldl (diffIfStep ti scale d srcIf) acc) d i =
            some (diffMetrics scale srcM mm) := by
  intro ifm
  induction ifm with
  | nil => intro _ i mm hmem; simp at hmem
  | cons ip rest ih =>
    intro hnd i mm hmem hskip hsrc acc
    simp only [keysOf, List.map_cons, List.nodup_cons] at hnd
    rcases List.mem_cons.1 hmem with heq | hmem'
    · have hip1 : ip.1 = i := by rw [← heq]
      have hip2 : ip.2 = mm := by rw [← heq]
      rw [List.foldl_cons,
        ifFold_lookup2_frame ti scale d srcIf i rest _ (by
          rw [← hip1]; simpa [keysOf] using hnd.1),
        diffIfStep_hit (by rw [hip1]; exact hskip) (by rw [hip1]; exact hsrc),
        hip1, hip2]
      exact lookup2_insert2_self _ _ _ _
    · rw [List.foldl_cons]
      exact ih (by simpa [keysOf] using hnd.2) i mm hmem' hskip hsrc _

theorem diffDevStep_skip {tn ti : Option String} {scale : ℚ} {src : Stats}
    {acc : DiffT} {dp : String × IfMap} (h : skipFilter tn dp.1 = true) :
    diffDevStep tn ti scale src acc dp = acc := by
  simp [diffDevStep, h]

theorem diffDevStep_nosrc {tn ti : Option String} {scale : ℚ} {src : Stats}
    {acc : DiffT} {dp : String × IfMap} (h1 : skipFilter tn dp.1 = false)
    (h2 : lookupS src dp.1 = none) :
    diffDevStep tn ti scale src acc dp = acc := by
  simp [diffDevStep, h1, h2]

theorem diffDevStep_hit {tn ti : Option String} {scale : ℚ} {src : Stats}
    {acc : DiffT} {dp : String × IfMap} {srcIf : IfMap}
    (h1 : skipFilter tn dp.1 = false) (h2 : lookupS src dp.1 = some srcIf) :
    diffDevStep tn ti scale src acc dp =
      dp.2.foldl (diffIfStep ti scale dp.1 srcIf) acc := by
  simp [diffDevStep, h1, h2]

theorem diffDevStep_lookupS_ne {tn ti : Option String} {scale : ℚ} {src : Stats}
    {acc : DiffT} {dp : String × IfMap} {d : String} (h : d ≠ dp.1) :
    lookupS (diffDevStep tn ti scale src acc dp) d = lookupS acc d := by
  by_cases hs : skipFilter tn dp.1 = true
  · rw [diffDevStep_skip hs]
  · cases hl : lookupS src dp.1 with
    | none => rw [diffDevStep_nosrc (Bool.not_eq_true _ ▸ hs) hl]
    | some srcIf =>
      rw [diffDevStep_hit (Bool.not_eq_true _ ▸ hs) hl]
      exact ifFold_lookupS_ne ti scale dp.1 srcIf d h dp.2 acc

theorem devFold_lookupS_frame (tn ti : Option String) (scale : ℚ) (src : Stats)
    (d : String) :
    ∀ (dst : Stats) (acc : DiffT), d ∉ keysOf dst →
      lookupS (dst.foldl (diffDevStep tn ti scale src) acc) d = lookupS acc d := by
  intro dst
  induction dst with
  | nil => intro acc _; rfl
  | cons dp rest ih =>
    intro acc hnd
    simp only [keysOf, List.map_cons, List.mem_cons, not_or] at hnd
    rw [List.foldl_cons, ih _ (by simpa [keysOf] using hnd.2)]
    exact diffDevStep_lookupS_ne hnd.1

theorem devFold_lookup2_main (tn ti : Option String) (scale : ℚ) (src : Stats)
    (srcIf : IfMap) (srcM : MetricMap) :
    ∀ (dst : Stats), (keysOf dst).Nodup →
      ∀ (d : String) (ifm : IfMap), (d, ifm) ∈ dst →
        skipFilter tn d = false → lookupS src d = some srcIf →
        (keysOf ifm).Nodup →
        ∀ (i : String) (mm : MetricMap), (i, mm) ∈ ifm →
          skipFilter ti i = false → lookupS srcIf i = some srcM →
          ∀ acc : DiffT,
            lookup2 (dst.foldl (diffDevStep tn ti scale src) acc) d i =
              some (diffMetrics scale srcM mm) := by
  intro dst
  induction dst with
  | nil => intro _ d ifm hmem; simp at hmem
  | cons dp rest ih =>
    intro hnd d ifm hmem htn hsd hndifm i mm hmi hti hsi acc
    simp only [keysOf, List.map_cons, List.nodup_cons] at hnd
    rcases List.mem_cons.1 hmem with heq | hmem'
    · have hd1 : dp.1 = d := by rw [← heq]
      have hd2 : dp.2 = ifm := by rw [← heq]
      rw [List.foldl_cons]
      have hframe :
          lookupS (rest.foldl (diffDevStep tn ti scale src)
            (diffDevStep tn ti scale src acc dp)) d =
          lookupS (diffDevStep tn ti scale src acc dp) d :=
        devFold_lookupS_frame tn ti scale src d rest _ (by
          rw [← hd1]; simpa [keysOf] using hnd.1)
      unfold lookup2
      rw [hframe]
      have hstep : diffDevStep tn ti scale src acc dp =
          dp.2.foldl (diffIfStep ti scale dp.1 srcIf) acc :=
        diffDevStep_hit (by rw [hd1]; exact htn) (by rw [hd1]; exact hsd)
      rw [hstep, hd1, hd2]
      exact ifFold_lookup2_main ti scale d srcIf srcM ifm hndifm i mm hmi hti hsi acc
    · rw [List.foldl_cons]
      exact ih (by simpa [keysOf] using hnd.2) d ifm hmem' htn hsd hndifm i mm hmi
        hti hsi _

theorem diffMetricsFold_frame (scale : ℚ) (srcM : MetricMap) (m : String) :
    ∀ (dstM : MetricMap) (acc : List (String × DiffEntry)), m ∉ keysOf dstM →
      lookupS (dstM.foldl
        (fun a p => insertKV a p.1 (computeMetricEntry scale srcM p.1 p.2)) acc) m =
      lookupS acc m := by
  intro dstM
  induction dstM with
  | nil => intro acc _; rfl
  | cons p rest ih =>
    intro acc hnm
    simp only [keysOf, List.map_cons, List.mem_cons, not_or] at hnm
    rw [List.foldl_cons, ih _ (by simpa [keysOf] using hnm.2)]
    exact lookupS_insertKV_ne _ _ _ _ hnm.1

theorem diffMetricsAux_main (scale : ℚ) (srcM : MetricMap) :
    ∀ (dstM : MetricMap), (keysOf dstM).Nodup →
      ∀ (m : String) (dv : ℚ), (m, dv) ∈ dstM →
        ∀ acc : List (String × DiffEntry),
          lookupS (dstM.foldl
            (fun a p => insertKV a p.1 (computeMetricEntry scale srcM p.1 p.2)) acc) m =
          some (computeMetricEntry scale srcM m dv) := by
  intro dstM
  induction dstM with
  | nil => intro _ m dv hmem; simp at hmem
  | cons p rest ih =>
    intro hnd m dv hmem acc
    simp only [keysOf, List.map_cons, List.nodup_cons] at hnd
    rcases List.mem_cons.1 hmem with heq | hmem'
    · have hp1 : p.1 = m := by rw [← heq]
      have hp2 : p.2 = dv := by rw [← heq]
      rw [List.foldl_cons,
        diffMetricsFold_frame scale srcM m rest _ (by
          rw [← hp1]; simpa [keysOf] using hnd.1),
        hp1, hp2]
      exact lookupS_insertKV_self _ _ _
    · rw [List.foldl_cons]
      exact ih (by simpa [keysOf] using hnd.2) m dv hmem' _

theorem diffMetrics_lookup (scale : ℚ) (srcM dstM : MetricMap)
    (hnd : (keysOf dstM).Nodup) (m : String) (dv : ℚ) (hmem : (m, dv) ∈ dstM) :
    lookupS (diffMetrics scale srcM dstM) m = some (computeMetricEntry scale srcM m dv) :=
  diffMetricsAux_main scale srcM dstM hnd m dv hmem []

theorem computeMetricEntry_eq_some (scale : ℚ) (srcM : MetricMap) (m : String)
    (dv sv : ℚ) (h : lookupS srcM m = some sv) :
    computeMetricEntry scale srcM m dv =
      some [("counter", some ((dv - sv) / scale)),
            ("ratio", if sv = 0 then none else some (dv / sv))] := by
  by_cases hsv : sv = 0 <;> simp [computeMetricEntry, h, hsv, insertKV]

theorem computeMetricEntry_none (scale : ℚ) (srcM : MetricMap) (m : String)
    (dv : ℚ) (h : lookupS srcM m = none) :
    computeMetricEntry scale srcM m dv = none := by
  simp [computeMetricEntry, h]

theorem lookup3_unpack {α : Type}
    {t : List (String × List (String × List (String × α)))} {d i m : String}
    {v : α} (h : lookup3 t d i m = some v) :
    ∃ dm im, lookupS t d = some dm ∧ lookupS dm i = some im ∧
      lookupS im m = some v := by
  unfold lookup3 lookup2 at h
  cases hdd : lookupS t d with
  | none => rw [hdd] at h; simp at h
  | some dm =>
    rw [hdd] at h
    simp only [Option.some_bind] at h
    cases hdi : lookupS dm i with
    | none => rw [hdi] at h; simp at h
    | some im =>
      rw [hdi] at h
      simp only [Option.some_bind] at h
      exact ⟨dm, im, rfl, hdi, h⟩

theorem lookup2_unpack {α : Type} {t : List (String × List (String × α))}
    {d i : String} {v : α} (h : lookup2 t d i = some v) :
    ∃ dm, lookupS t d = some dm ∧ lookupS dm i = some v := by
  unfold lookup2 at h
  cases hdd : lookupS t d with
  | none => rw [hdd] at h; simp at h
  | some dm =>
    rw [hdd] at h
    simp only [Option.some_bind] at h
    exact ⟨dm, rfl, h⟩

/-! ## Claim C3: scaled diff counter and ratio -/

/-- C3: in a scaled diff with trafficScale > 0, for every device, interface
and metric present on both sides (and inside the optional filters), the
entry's counter is (destination − source) / trafficScale and its ratio is
destination / source when the source value is non-zero, while the ratio is
null when the source value is exactly 0, the counter still being computed
normally in that case. -/
theorem C3_scaled_diff_counter_and_ratio (tn ti : Option String) (scale : ℚ)
    (src dst : Stats) (d i m : String) (dv sv : ℚ)
    (hwf : WFStats dst) (hscale : 0 < scale)
    (hdst : lookup3 dst d i m = some dv) (hsrc : lookup3 src d i m = some sv)
    (htn : skipFilter tn d = false) (hti : skipFilter ti i = false) :
    lookup3 (get_state_stats_diff tn ti scale src dst) d i m =
      some (some [("counter", some ((dv - sv) / scale)),
                  ("ratio", if sv = 0 then none else some (dv / sv))]) := by
  obtain ⟨ifm, mm, hdd, hdi, hdm⟩ := lookup3_unpack hdst
  obtain ⟨srcIf, srcM, hsd, hsi, hsm⟩ := lookup3_unpack hsrc
  have hmem_d := lookupS_eq_some_mem hdd
  have hmem_i := lookupS_eq_some_mem hdi
  have hmem_m := lookupS_eq_some_mem hdm
  have hnd_ifm := (hwf.2 (d, ifm) hmem_d).1
  have hnd_mm := (hwf.2 (d, ifm) hmem_d).2 (i, mm) hmem_i
  have h2 : lookup2 (get_state_stats_diff tn ti scale src dst) d i =
      some (diffMetrics scale srcM mm) :=
    devFold_lookup2_main tn ti scale src srcIf srcM dst hwf.1 d ifm hmem_d htn hsd
      hnd_ifm i mm hmem_i hti hsi []
  unfold lookup3
  rw [h2, Option.some_bind,
    diffMetrics_lookup scale srcM mm hnd_mm m dv hmem_m,
    computeMetricEntry_eq_some scale srcM m dv sv hsm]

/-- Witness for C3 at trafficScale 2: a metric pair 50 → 150 yields counter
50 and ratio 3, and a metric pair 0 → 7 yields counter 7/2 and a null ratio. -/
theorem C3_scaled_diff_counter_and_ratio_witness :
    lookup3 (get_state_stats_diff none none 2
        [("leaf1", [("eth1", [("RX_BPS_AVG", 50), ("TX_BPS_AVG", 0)])])]
        [("leaf1", [("eth1", [("RX_BPS_AVG", 150), ("TX_BPS_AVG", 7)])])])
      "leaf1" "eth1" "RX_BPS_AVG" =
      some (some [("counter", some 50), ("ratio", some 3)]) ∧
    lookup3 (get_state_stats_diff none none 2
        [("leaf1", [("eth1", [("RX_BPS_AVG", 50), ("TX_BPS_AVG", 0)])])]
        [("leaf1", [("eth1", [("RX_BPS_AVG", 150), ("TX_BPS_AVG", 7)])])])
      "leaf1" "eth1" "TX_BPS_AVG" =
      some (some [("counter", some (7 / 2)), ("ratio", none)]) := by
  constructor
  · have h := C3_scaled_diff_counter_and_ratio none none 2
      [("leaf1", [("eth1", [("RX_BPS_AVG", 50), ("TX_BPS_AVG", 0)])])]
      [("leaf1", [("eth1", [("RX_BPS_AVG", 150), ("TX_BPS_AVG", 7)])])]
      "leaf1" "eth1" "RX_BPS_AVG" 150 50 (by decide) (by norm_num) rfl rfl rfl rfl
    rw [if_neg (by norm_num : ¬(50 : ℚ) = 0),
      (by norm_num : ((150 : ℚ) - 50) / 2 = 50),
      (by norm_num : (150 : ℚ) / 50 = 3)] at h
    exact h
  · have h := C3_scaled_diff_counter_and_ratio none none 2
      [("leaf1", [("eth1", [("RX_BPS_AVG", 50), ("TX_BPS_AVG", 0)])])]
      [("leaf1", [("eth1", [("RX_BPS_AVG", 150), ("TX_BPS_AVG", 7)])])]
      "leaf1" "eth1" "TX_BPS_AVG" 7 0 (by decide) (by norm_num) rfl rfl rfl rfl
    rw [if_pos rfl, (by norm_num : ((7 : ℚ) - 0) / 2 = 7 / 2)] at h
    exact h

/-! ## Claim C8: destination metric absent on the source side -/

/-- C8: for every common (device, interface) pair, a metric present on the
destination side but absent from the source side yields null as the whole
diff entry for that metric — not an object with null counter/ratio fields. -/
theorem C8_absent_source_metric_is_null_entry (tn ti : Option String) (scale : ℚ)
    (src dst : Stats) (d i m : String) (dv : ℚ) (srcM : MetricMap)
    (hwf : WFStats dst)
    (hdst : lookup3 dst d i m = some dv)
    (hsrc2 : lookup2 src d i = some srcM) (hsm : lookupS srcM m = none)
    (htn : skipFilter tn d = false) (hti : skipFilter ti i = false) :
    lookup3 (get_state_stats_diff tn ti scale src dst) d i m = some none := by
  obtain ⟨ifm, mm, hdd, hdi, hdm⟩ := lookup3_unpack hdst
  obtain ⟨srcIf, hsd, hsi⟩ := lookup2_unpack hsrc2
  have hmem_d := lookupS_eq_some_mem hdd
  have hmem_i := lookupS_eq_some_mem hdi
  have hmem_m := lookupS_eq_some_mem hdm
  have hnd_ifm := (hwf.2 (d, ifm) hmem_d).1
  have hnd_mm := (hwf.2 (d, ifm) hmem_d).2 (i, mm) hmem_i
  have h2 : lookup2 (get_state_stats_diff tn ti scale src dst) d i =
      some (diffMetrics scale srcM mm) :=
    devFold_lookup2_main tn ti scale src srcIf srcM dst hwf.1 d ifm hmem_d htn hsd
      hnd_ifm i mm hmem_i hti hsi []
  unfold lookup3
  rw [h2, Option.some_bind,
    diffMetrics_lookup scale srcM mm hnd_mm m dv hmem_m,
    computeMetricEntry_none scale srcM m dv hsm]

/-- Witness for C8: RX_BPS_MAX exists only on the destination side, so its
whole entry is null. -/
theorem C8_absent_source_metric_is_null_entry_witness :
    lookup3 (get_state_stats_diff none none 2
        [("leaf1", [("eth1", [("RX_BPS_AVG", 50)])])]
        [("leaf1", [("eth1", [("RX_BPS_MAX", 9)])])])
      "leaf1" "eth1" "RX_BPS_MAX" = some none :=
  C8_absent_source_metric_is_null_entry none none 2
    [("leaf1", [("eth1", [("RX_BPS_AVG", 50)])])]
    [("leaf1", [("eth1", [("RX_BPS_MAX", 9)])])]
    "leaf1" "eth1" "RX_BPS_MAX" 9 [("RX_BPS_AVG", 50)] (by decide) rfl rfl rfl rfl rfl

/-! ## Claim C10: every diff entry is null or has both keys -/

theorem computeMetricEntry_shape (scale : ℚ) (srcM : MetricMap) (m : String)
    (dv : ℚ) : entryShape (computeMetricEntry scale srcM m dv) := by
  cases h : lookupS srcM m with
  | none => exact Or.inl (computeMetricEntry_none scale srcM m dv h)
  | some sv =>
    right
    rw [computeMetricEntry_eq_some scale srcM m dv sv h]
    exact ⟨_, _, rfl⟩

theorem diffMetrics_entries_shape (scale : ℚ) (srcM : MetricMap) :
    ∀ (dstM : MetricMap) (acc : List (String × DiffEntry)),
      (∀ x ∈ acc, entryShape x.2) →
      ∀ x ∈ dstM.foldl
        (fun a p => insertKV a p.1 (computeMetricEntry scale srcM p.1 p.2)) acc,
        entryShape x.2 := by
  intro dstM
  induction dstM with
  | nil => intro acc hacc; exact hacc
  | cons p rest ih =>
    intro acc hacc
    rw [List.foldl_cons]
    refine ih _ ?_
    intro x hx
    rcases mem_insertKV hx with heq | hx'
    · rw [heq]
      exact computeMetricEntry_shape scale srcM p.1 p.2
    · exact hacc x hx'

theorem insert2_shape (acc : DiffT) (d i : String) (v : List (String × DiffEntry))
    (hacc : ∀ p ∈ acc, ∀ q ∈ p.2, ∀ e ∈ q.2, entryShape e.2)
    (hv : ∀ e ∈ v, entryShape e.2) :
    ∀ p ∈ insert2 acc d i v, ∀ q ∈ p.2, ∀ e ∈ q.2, entryShape e.2 := by
  intro p hp q hq e he
  rcases mem_insertKV hp with heq | hp'
  · rw [heq] at hq
    rcases mem_insertKV hq with heq2 | hq'
    · rw [heq2] at he
      exact hv e he
    · cases hcur : lookupS acc d with
      | none =>
        rw [hcur] at hq'
        simp at hq'
      | some cur =>
        rw [hcur] at hq'
        exact hacc (d, cur) (lookupS_eq_some_mem hcur) q hq' e he
  · exact hacc p hp' q hq e he

theorem diffIfStep_shape (ti : Option String) (scale : ℚ) (d : String)
    (srcIf : IfMap) (acc2 : DiffT) (ip : String × MetricMap)
    (hacc : ∀ p ∈ acc2, ∀ q ∈ p.2, ∀ e ∈ q.2, entryShape e.2) :
    ∀ p ∈ diffIfStep ti scale d srcIf acc2 ip, ∀ q ∈ p.2, ∀ e ∈ q.2,
      entryShape e.2 := by
  by_cases hs : skipFilter ti ip.1 = true
  · rw [diffIfStep_skip hs]; exact hacc
  · cases hl : lookupS srcIf ip.1 with
    | none => rw [diffIfStep_nosrc (Bool.not_eq_true _ ▸ hs) hl]; exact hacc
    | some srcM =>
      rw [diffIfStep_hit (Bool.not_eq_true _ ▸ hs) hl]
      exact insert2_shape acc2 d ip.1 _ hacc
        (diffMetrics_entries_shape scale srcM ip.2 [] (by simp))

theorem ifFold_shape (ti : Option String) (scale : ℚ) (d : String) (srcIf : IfMap) :
    ∀ (ifm : IfMap) (acc : DiffT),
      (∀ p ∈ acc, ∀ q ∈ p.2, ∀ e ∈ q.2, entryShape e.2) →
      ∀ p ∈ ifm.foldl (diffIfStep ti scale d srcIf) acc, ∀ q ∈ p.2, ∀ e ∈ q.2,
        entryShape e.2 := by
  intro ifm
  induction ifm with
  | nil => intro acc hacc; exact hacc
  | cons ip rest ih =>
    intro acc hacc
    rw [List.foldl_cons]
    exact ih _ (diffIfStep_shape ti scale d srcIf acc ip hacc)

theorem diffDevStep_shape (tn ti : Option String) (scale : ℚ) (src : Stats)
    (acc : DiffT) (dp : String × IfMap)
    (hacc : ∀ p ∈ acc, ∀ q ∈ p.2, ∀ e ∈ q.2, entryShape e.2) :
    ∀ p ∈ diffDevStep tn ti scale src acc dp, ∀ q ∈ p.2, ∀ e ∈ q.2,
      entryShape e.2 := by
  by_cases hs : skipFilter tn dp.1 = true
  · rw [diffDevStep_skip hs]; exact hacc
  · cases hl : lookupS src dp.1 with
    | none => rw [diffDevStep_nosrc (Bool.not_eq_true _ ▸ hs) hl]; exact hacc
    | some srcIf =>
      rw [diffDevStep_hit (Bool.not_eq_true _ ▸ hs) hl]
      exact ifFold_shape ti scale dp.1 srcIf dp.2 acc hacc

/-- C10: every metric entry in a DiffTree produced by the scaled diff
operation is either null or an object holding exactly the keys "counter"
and "ratio" — never an empty object or a one-key object. -/
theorem C10_diff_entries_have_both_keys (tn ti : Option String) (scale : ℚ)
    (src dst : Stats) :
    ∀ p ∈ get_state_stats_diff tn ti scale src dst, ∀ q ∈ p.2, ∀ e ∈ q.2,
      entryShape e.2 := by
  unfold get_state_stats_diff
  have hgen :
      ∀ (l : Stats) (acc : DiffT),
        (∀ p ∈ acc, ∀ q ∈ p.2, ∀ e ∈ q.2, entryShape e.2) →
        ∀ p ∈ l.foldl (diffDevStep tn ti scale src) acc, ∀ q ∈ p.2, ∀ e ∈ q.2,
          entryShape e.2 := by
    intro l
    induction l with
    | nil => intro acc hacc; exact hacc
    | cons dp rest ih =>
      intro acc hacc
      rw [List.foldl_cons]
      exact ih _ (diffDevStep_shape tn ti scale src acc dp hacc)
  exact hgen dst [] (by simp)

/-- Witness for C10 at a concrete one-metric diff. -/
theorem C10_diff_entries_have_both_keys_witness :
    entryShape (computeMetricEntry 2 [("RX_BPS_AVG", 50)] "RX_BPS_AVG" 150) := by
  have h2 : lookup2 (get_state_stats_diff none none 2
      [("leaf1", [("eth1", [("RX_BPS_AVG", 50)])])]
      [("leaf1", [("eth1", [("RX_BPS_AVG", 150)])])]) "leaf1" "eth1" =
      some (diffMetrics 2 [("RX_BPS_AVG", 50)] [("RX_BPS_AVG", 150)]) :=
    devFold_lookup2_main none none 2 [("leaf1", [("eth1", [("RX_BPS_AVG", 50)])])]
      [("eth1", [("RX_BPS_AVG", 50)])] [("RX_BPS_AVG", 50)]
      [("leaf1", [("eth1", [("RX_BPS_AVG", 150)])])] (by decide)
      "leaf1" [("eth1", [("RX_BPS_AVG", 150)])] (List.mem_cons_self _ _) rfl rfl
      (by decide) "eth1" [("RX_BPS_AVG", 150)] (List.mem_cons_self _ _) rfl rfl []
  obtain ⟨dm, hdd, hdi⟩ := lookup2_unpack h2
  have he : ("RX_BPS_AVG", computeMetricEntry 2 [("RX_BPS_AVG", 50)] "RX_BPS_AVG" 150) ∈
      diffMetrics 2 [("RX_BPS_AVG", 50)] [("RX_BPS_AVG", 150)] := by
    rw [show diffMetrics 2 [("RX_BPS_AVG", 50)] [("RX_BPS_AVG", 150)] =
      [("RX_BPS_AVG", computeMetricEntry 2 [("RX_BPS_AVG", 50)] "RX_BPS_AVG" 150)]
      from rfl]
    exact List.mem_cons_self _ _
  exact C10_diff_entries_have_both_keys none none 2
    [("leaf1", [("eth1", [("RX_BPS_AVG", 50)])])]
    [("leaf1", [("eth1", [("RX_BPS_AVG", 150)])])]
    _ (lookupS_eq_some_mem hdd) _ (lookupS_eq_some_mem hdi) _ he

/-! ## Claim C4: metric capture filtering and last-write-wins -/

theorem lookup3_insertStat (acc : Stats) (d i m : String) (v : ℚ) (d' i' m' : String) :
    lookup3 (insertStat acc d i m v) d' i' m' =
      if d = d' ∧ i = i' ∧ m = m' then some v else lookup3 acc d' i' m' := by
  unfold insertStat lookup3 lookup2
  by_cases hd : d = d'
  · subst hd
    rw [lookupS_insertKV_self]
    simp only [Option.some_bind]
    by_cases hi : i = i'
    · subst hi
      rw [lookupS_insertKV_self]
      simp only [Option.some_bind]
      by_cases hm : m = m'
      · subst hm
        rw [lookupS_insertKV_self]
        simp
      · rw [lookupS_insertKV_ne _ _ _ _ (Ne.symm hm), if_neg (by tauto)]
        cases hacc : lookupS acc d with
        | none => simp [lookupS]
        | some dm =>
          simp only [Option.some_bind, Option.getD_some]
          cases hdm : lookupS dm i with
          | none => simp [lookupS]
          | some im => simp
    · rw [lookupS_insertKV_ne _ _ _ _ (Ne.symm hi), if_neg (by tauto)]
      cases hacc : lookupS acc d with
      | none => simp [lookupS]
      | some dm => simp
  · rw [lookupS_insertKV_ne _ _ _ _ (Ne.symm hd), if_neg (by tauto)]

theorem processRow_lookup3 (mt : String) (acc : Stats) (r : Row) (d i m : String) :
    lookup3 (processRow mt acc r) d i m =
      if qualRow r && mt == m && r.device == some d && r.interface == some i then
        some r.value
      else lookup3 acc d i m := by
  obtain ⟨rd, ri, rv⟩ := r
  cases ri with
  | none => simp [processRow, pyFalsy, qualRow]
  | some si =>
    by_cases hempty : si.isEmpty = true
    · simp [processRow, pyFalsy, qualRow, hempty]
    · rw [Bool.not_eq_true] at hempty
      by_cases hdeny : denyMatch si = true
      · simp [processRow, pyFalsy, qualRow, hempty, hdeny]
      · rw [Bool.not_eq_true] at hdeny
        cases rd with
        | none => simp [processRow, pyFalsy, qualRow, hempty, hdeny]
        | some sd =>
          by_cases hsd : sd.isEmpty = true
          · simp [processRow, pyFalsy, qualRow, hempty, hdeny, hsd]
          · rw [Bool.not_eq_true] at hsd
            have hstep :
                processRow mt acc ⟨some sd, some si, rv⟩ = insertStat acc sd si mt rv := by
              simp [processRow, pyFalsy, hempty, hdeny, hsd]
            rw [hstep, lookup3_insertStat]
            have hqual : qualRow ⟨some sd, some si, rv⟩ = true := by
              simp [qualRow, pyFalsy, hempty, hdeny, hsd]
            by_cases hc : sd = d ∧ si = i ∧ mt = m
            · have hbb :
                  (qualRow ⟨some sd, some si, rv⟩ && mt == m && (some sd == some d) &&
                    (some si == some i)) = true := by
                simp only [Bool.and_eq_true, beq_iff_eq, Option.some.injEq]
                exact ⟨⟨⟨hqual, hc.2.2⟩, hc.1⟩, hc.2.1⟩
              rw [if_pos hc, hbb, if_pos rfl]
            · rw [if_neg hc]
              cases hbb :
                  (qualRow ⟨some sd, some si, rv⟩ && mt == m && (some sd == some d) &&
                    (some si == some i)) with
              | false => rw [if_neg (by decide)]
              | true =>
                exfalso
                simp only [Bool.and_eq_true, beq_iff_eq, Option.some.injEq] at hbb
                exact hc ⟨hbb.1.2, hbb.2, hbb.1.1.2⟩

theorem lookup3_foldl_processRow :
    ∀ (l : List (String × Row)) (acc : Stats) (d i m : String),
      lookup3 (l.foldl (fun a q => processRow q.1 a q.2) acc) d i m =
        l.foldl (fun o q =>
          if qualRow q.2 && q.1 == m && q.2.device == some d &&
              q.2.interface == some i then
            some q.2.value
          else o) (lookup3 acc d i m) := by
  intro l
  induction l with
  | nil => intro acc d i m; rfl
  | cons q rest ih =>
    intro acc d i m
    rw [List.foldl_cons, List.foldl_cons, ih, processRow_lookup3]

theorem foldl_nested_eq_flat :
    ∀ (series : List (String × List Row)) (acc : Stats),
      series.foldl (fun acc2 p => p.2.foldl (fun a r => processRow p.1 a r) acc2) acc =
        (flatSeries series).foldl (fun a q => processRow q.1 a q.2) acc := by
  intro series
  induction series with
  | nil => intro acc; rfl
  | cons p rest ih =>
    intro acc
    rw [List.foldl_cons]
    unfold flatSeries
    rw [List.flatMap_cons, List.foldl_append, List.foldl_map, ih]
    rfl

theorem buildStats_lookup3 (series : List (String × List Row)) (d i m : String) :
    lookup3 (buildStats series) d i m = lastQual (flatSeries series) d i m := by
  unfold buildStats lastQual
  rw [foldl_nested_eq_flat, lookup3_foldl_processRow]
  rfl

theorem insertStat_keys (acc : Stats) (d i m : String) (v : ℚ)
    (hd : d ≠ "") (hi : i ≠ "") (hdm : denyMatch i = false)
    (hacc : ∀ p ∈ acc, p.1 ≠ "" ∧ ∀ q ∈ p.2, q.1 ≠ "" ∧ denyMatch q.1 = false) :
    ∀ p ∈ insertStat acc d i m v, p.1 ≠ "" ∧
      ∀ q ∈ p.2, q.1 ≠ "" ∧ denyMatch q.1 = false := by
  intro p hp
  rcases mem_insertKV hp with heq | hp'
  · rw [heq]
    refine ⟨hd, ?_⟩
    intro q hq
    rcases mem_insertKV hq with heq2 | hq'
    · rw [heq2]
      exact ⟨hi, hdm⟩
    · cases hcur : lookupS acc d with
      | none =>
        rw [hcur] at hq'
        simp at hq'
      | some dm =>
        rw [hcur] at hq'
        exact (hacc (d, dm) (lookupS_eq_some_mem hcur)).2 q hq'
  · exact hacc p hp'

theorem processRow_keys (mt : String) (acc : Stats) (r : Row)
    (hacc : ∀ p ∈ acc, p.1 ≠ "" ∧ ∀ q ∈ p.2, q.1 ≠ "" ∧ denyMatch q.1 = false) :
    ∀ p ∈ processRow mt acc r, p.1 ≠ "" ∧
      ∀ q ∈ p.2, q.1 ≠ "" ∧ denyMatch q.1 = false := by
  obtain ⟨rd, ri, rv⟩ := r
  cases ri with
  | none => exact hacc
  | some si =>
    by_cases hempty : si.isEmpty = true
    · simpa [processRow, pyFalsy, hempty] using hacc
    · rw [Bool.not_eq_true] at hempty
      by_cases hdeny : denyMatch si = true
      · simpa [processRow, pyFalsy, hempty, hdeny] using hacc
      · rw [Bool.not_eq_true] at hdeny
        cases rd with
        | none => simpa [processRow, pyFalsy, hempty, hdeny] using hacc
        | some sd =>
          by_cases hsd : sd.isEmpty = true
          · simpa [processRow, pyFalsy, hempty, hdeny, hsd] using hacc
          · rw [Bool.not_eq_true] at hsd
            have hstep :
                processRow mt acc ⟨some sd, some si, rv⟩ = insertStat acc sd si mt rv := by
              simp [processRow, pyFalsy, hempty, hdeny, hsd]
            rw [hstep]
            exact insertStat_keys acc sd si mt rv
              (fun h => by rw [h] at hsd; exact absurd hsd (by decide))
              (fun h => by rw [h] at hempty; exact absurd hempty (by decide))
              hdeny hacc

theorem buildStats_keys (series : List (String × List Row)) :
    ∀ p ∈ buildStats series, p.1 ≠ "" ∧
      ∀ q ∈ p.2, q.1 ≠ "" ∧ denyMatch q.1 = false := by
  unfold buildStats
  rw [foldl_nested_eq_flat]
  have hgen : ∀ (l : List (String × Row)) (acc : Stats),
      (∀ p ∈ acc, p.1 ≠ "" ∧ ∀ q ∈ p.2, q.1 ≠ "" ∧ denyMatch q.1 = false) →
      ∀ p ∈ l.foldl (fun a q => processRow q.1 a q.2) acc, p.1 ≠ "" ∧
        ∀ q ∈ p.2, q.1 ≠ "" ∧ denyMatch q.1 = false := by
    intro l
    induction l with
    | nil => intro acc hacc; exact hacc
    | cons q rest ih =>
      intro acc hacc
      rw [List.foldl_cons]
      exact ih _ (processRow_keys q.1 acc q.2 hacc)
  exact hgen _ [] (by simp)

theorem fetchGo_all_ok (rows : String → List Row) :
    ∀ (l : List String) (acc : Stats),
      (fetchGo (fun mt => Except.ok (rows mt)) l acc).1 =
        Except.ok (l.foldl
          (fun a mt => (rows mt).foldl (fun a2 r => processRow mt a2 r) a) acc) := by
  intro l
  induction l with
  | nil => intro acc; rfl
  | cons mt rest ih =>
    intro acc
    rw [List.foldl_cons]
    exact ih _

/-- C4: when every metric-series query succeeds, the capture produces
exactly the tree built from the qualifying rows — rows with a present,
non-empty, non-denylisted interface label and a present, non-empty device
label — each stored at [device][interface][metricSeries] with the last
write winning for duplicate keys; and no empty or denylisted interface
name ever appears as a key of the tree. -/
theorem C4_capture_filter_and_last_write (rows : String → List Row) :
    (fetchSampledStateStats (fun mt => Except.ok (rows mt))).1 =
      Except.ok (buildStats (metricTypes.map (fun mt => (mt, rows mt)))) ∧
    (∀ d i m, lookup3 (buildStats (metricTypes.map (fun mt => (mt, rows mt)))) d i m =
      lastQual (flatSeries (metricTypes.map (fun mt => (mt, rows mt)))) d i m) ∧
    (∀ p ∈ buildStats (metricTypes.map (fun mt => (mt, rows mt))), p.1 ≠ "" ∧
      ∀ q ∈ p.2, q.1 ≠ "" ∧ denyMatch q.1 = false) := by
  refine ⟨?_, ?_, buildStats_keys _⟩
  · unfold fetchSampledStateStats
    rw [fetchGo_all_ok rows metricTypes []]
    unfold buildStats
    rw [List.foldl_map]
  · intro d i m
    exact buildStats_lookup3 _ d i m

/-- Witness for C4: one series returns a qualifying row, a denylisted row
and a second qualifying row for the same key; the tree keeps the last
qualifying value and drops the denylisted interface. -/
theorem C4_capture_filter_and_last_write_witness :
    lookup3 (buildStats (metricTypes.map (fun mt =>
        (mt, (if mt = "RX_BPS_AVG" then
          [⟨some "leaf1", some "eth1", (100 : ℚ)⟩,
           ⟨some "leaf1", some "gre1", (5 : ℚ)⟩,
           ⟨some "leaf1", some "eth1", (120 : ℚ)⟩] else [] : List Row)))))
      "leaf1" "eth1" "RX_BPS_AVG" =
      lastQual (flatSeries (metricTypes.map (fun mt =>
        (mt, (if mt = "RX_BPS_AVG" then
          [⟨some "leaf1", some "eth1", (100 : ℚ)⟩,
           ⟨some "leaf1", some "gre1", (5 : ℚ)⟩,
           ⟨some "leaf1", some "eth1", (120 : ℚ)⟩] else [] : List Row)))))
        "leaf1" "eth1" "RX_BPS_AVG" ∧
    lastQual (flatSeries (metricTypes.map (fun mt =>
        (mt, (if mt = "RX_BPS_AVG" then
          [⟨some "leaf1", some "eth1", (100 : ℚ)⟩,
           ⟨some "leaf1", some "gre1", (5 : ℚ)⟩,
           ⟨some "leaf1", some "eth1", (120 : ℚ)⟩] else [] : List Row)))))
      "leaf1" "eth1" "RX_BPS_AVG" = some 120 :=
  ⟨(C4_capture_filter_and_last_write (fun mt =>
      (if mt = "RX_BPS_AVG" then
        [⟨some "leaf1", some "eth1", (100 : ℚ)⟩,
         ⟨some "leaf1", some "gre1", (5 : ℚ)⟩,
         ⟨some "leaf1", some "eth1", (120 : ℚ)⟩] else []))).2.1 "leaf1" "eth1" "RX_BPS_AVG",
   by decide⟩

end StateConductor
